import Mathlib

set_option maxHeartbeats 1000000

/-!
Verification development for the EIP-7702Test repository.

Part 1 embeds the Solidity contract `AuthorizationERC20Delegation`
(found inline in scripts/deployAuthorizationERC20Delegation.js): an
ERC-20 token with EIP-3009-style one-time transfer authorizations.
Storage maps become Lean functions, `require` failures become
`Except.error` with the contract's distinct revert identifiers, and the
EVM's revert-all-on-failure discipline is the `Except` monad's: an
`.error` result carries no state, so the caller keeps the pre-call
state unchanged.

Cryptographic primitives are abstracted injectively: `keccak256` of the
abi-encoded struct data is modelled by the structured data itself
(`StructHash`, `TypedDigest`), which is faithful up to keccak collision
freedom, and `ecrecover` is an arbitrary function parameter returning a
20-byte address (the zero address standing for recovery failure, as in
the EVM precompile).

Part 2 embeds the off-chain EIP-7702 builder scripts
(scripts/executeERC20Transfer.js and the two unnamed scripts): the RLP
encoder as implemented by ethers.encodeRlp, the byte-level field
representations produced by ethers.toBeHex, and the assembly and
signing of the type-0x04 transaction and the 0x05-magic authorization
payload.
-/

namespace EIP7702Test

/-- 20-byte account identifier; the zero address (= 0) is `ecrecover`'s
failure value. -/
abbrev Address := Nat

/-- 2^256, the modulus of the EVM word; `unchecked` arithmetic in the
contract wraps at this modulus. -/
def U256MOD : Nat := 2 ^ 256

/-- `type(uint256).max`, the sentinel for an infinite allowance in
`transferFrom`. -/
def UINT256MAX : Nat := U256MOD - 1

/-- The contract's `enum AuthorizationState { Unused, Used, Canceled }`. -/
inductive AuthorizationState where
  | Unused
  | Used
  | Canceled
deriving DecidableEq, Repr

/-- The contract's distinct `require` revert identifiers, plus the
Solidity 0.8 checked-arithmetic panic (`OVERFLOW`). -/
inductive Err where
  | BALANCE
  | ALLOWANCE
  | SIG
  | STATE
  | TIME_NOT_YET
  | TIME_EXPIRED
  | USED_OR_CANCELLED
  | OVERFLOW
deriving DecidableEq, Repr

/-- The abi-encoded struct data hashed into an EIP-712 struct hash.
The two typehashes become two constructors; keccak over the abi
encoding is injective up to collisions, so the structured data itself
stands for the hash. -/
inductive StructHash where
  | transferWithAuthorization (fromAddr toAddr value validAfter validBefore nonce : Nat)
  | cancelAuthorization (authorizer nonce : Nat)
deriving DecidableEq, Repr

/-- `keccak256(abi.encodePacked("\x19\x01", DOMAIN_SEPARATOR, structHash))`,
modelled by its injective preimage. -/
structure TypedDigest where
  domainSeparator : Nat
  structHash : StructHash
deriving DecidableEq, Repr

/-- An ECDSA signature `(v, r, s)` as supplied to the contract. -/
structure Sig where
  v : Nat
  r : Nat
  s : Nat
deriving DecidableEq, Repr

/-- The `ecrecover` precompile, abstracted: any function from digest and
signature to an address; returning the zero address models recovery
failure. -/
abbrev Ecrecover := TypedDigest → Sig → Address

/-- Contract storage. `name`, `symbol`, `decimals` and events are
omitted: no claim mentions them and no function reads them.
`authorizationState` is keyed by the preimage `(authorizer, nonce)` of
`_authKey`'s keccak, which is faithful up to collisions. -/
structure TokenState where
  totalSupply : Nat
  balanceOf : Address → Nat
  allowance : Address → Address → Nat
  authorizationState : Address × Nat → AuthorizationState
  DOMAIN_SEPARATOR : Nat

/-- `_authKey(authorizer, nonce)`: the keccak of the packed pair,
modelled by the pair. -/
def _authKey (authorizer : Address) (nonce : Nat) : Address × Nat :=
  (authorizer, nonce)

/-- `_toTypedMessageHash(structHash)`. -/
def _toTypedMessageHash (st : TokenState) (structHash : StructHash) : TypedDigest :=
  ⟨st.DOMAIN_SEPARATOR, structHash⟩

/-- `_mint(to, value)`: checked additions to `totalSupply` and
`balanceOf[to]` (Solidity 0.8 default arithmetic). -/
def _mint (st : TokenState) (toAddr value : Nat) : Except Err TokenState :=
  if U256MOD ≤ st.totalSupply + value then .error .OVERFLOW
  else if U256MOD ≤ st.balanceOf toAddr + value then .error .OVERFLOW
  else .ok { st with
    totalSupply := st.totalSupply + value,
    balanceOf := Function.update st.balanceOf toAddr (st.balanceOf toAddr + value) }

/-- The constructor: fresh storage (all maps zero / `Unused`), the
domain separator recorded, then `_mint(msg.sender, _initialSupply)`.
The keccak computing `DOMAIN_SEPARATOR` is abstracted into the
`domainSeparator` argument. -/
def mkToken (domainSeparator : Nat) (msgSender : Address) (initialSupply : Nat) :
    Except Err TokenState :=
  _mint
    { totalSupply := 0
      balanceOf := fun _ => 0
      allowance := fun _ _ => 0
      authorizationState := fun _ => .Unused
      DOMAIN_SEPARATOR := domainSeparator }
    msgSender initialSupply

/-- The balance map after `_transfer`'s two `unchecked` writes:
`balanceOf[from] -= value; balanceOf[to] += value` (the second wraps at
2^256 in principle, hence the modulus). -/
def transferredBalances (b : Address → Nat) (fromAddr toAddr value : Nat) : Address → Nat :=
  let b1 := Function.update b fromAddr (b fromAddr - value)
  Function.update b1 toAddr ((b1 toAddr + value) % U256MOD)

/-- `_transfer(from, to, value)`: `require(balanceOf[from] >= value, "BALANCE")`
then the two unchecked balance writes. -/
def _transfer (st : TokenState) (fromAddr toAddr value : Nat) : Except Err TokenState :=
  if st.balanceOf fromAddr < value then .error .BALANCE
  else .ok { st with balanceOf := transferredBalances st.balanceOf fromAddr toAddr value }

/-- `transfer(to, value)` (external): `_transfer(msg.sender, to, value)`. -/
def transfer (st : TokenState) (msgSender toAddr value : Nat) : Except Err TokenState :=
  _transfer st msgSender toAddr value

/-- `approve(spender, value)` (external). -/
def approve (st : TokenState) (msgSender spender value : Nat) : Except Err TokenState :=
  .ok { st with
    allowance := Function.update st.allowance msgSender
      (Function.update (st.allowance msgSender) spender value) }

/-- `transferFrom(from, to, value)` (external): allowance check, the
infinite-allowance sentinel, then `_transfer`. -/
def transferFrom (st : TokenState) (msgSender fromAddr toAddr value : Nat) :
    Except Err TokenState :=
  let allowed := st.allowance fromAddr msgSender
  if allowed < value then .error .ALLOWANCE
  else
    let st1 :=
      if allowed ≠ UINT256MAX then
        { st with
          allowance := Function.update st.allowance fromAddr
            (Function.update (st.allowance fromAddr) msgSender (allowed - value)) }
      else st
    _transfer st1 fromAddr toAddr value

/-- `_validateAndUse(authorizer, validAfter, validBefore, nonce, structHash, v, r, s)`:
the three `require`s in source order (timing, signature, record Unused),
then the record write to `Used`. `timestamp` is `block.timestamp`. -/
def _validateAndUse (ecrecover : Ecrecover) (timestamp : Nat) (st : TokenState)
    (authorizer validAfter validBefore nonce : Nat) (structHash : StructHash) (sig : Sig) :
    Except Err TokenState :=
  if ¬ validAfter < timestamp then .error .TIME_NOT_YET
  else if ¬ timestamp < validBefore then .error .TIME_EXPIRED
  else
    let recovered := ecrecover (_toTypedMessageHash st structHash) sig
    if recovered ≠ authorizer then .error .SIG
    else if st.authorizationState (_authKey authorizer nonce) ≠ .Unused then
      .error .USED_OR_CANCELLED
    else .ok { st with
      authorizationState :=
        Function.update st.authorizationState (_authKey authorizer nonce) .Used }

/-- `transferWithAuthorization(from, to, value, validAfter, validBefore, nonce, v, r, s)`
(external): `_validateAndUse` over the TransferWithAuthorization struct
hash, then `_transfer(from, to, value)`. -/
def transferWithAuthorization (ecrecover : Ecrecover) (timestamp : Nat) (st : TokenState)
    (fromAddr toAddr value validAfter validBefore nonce : Nat) (sig : Sig) :
    Except Err TokenState :=
  match _validateAndUse ecrecover timestamp st fromAddr validAfter validBefore nonce
      (.transferWithAuthorization fromAddr toAddr value validAfter validBefore nonce) sig with
  | .error e => .error e
  | .ok st1 => _transfer st1 fromAddr toAddr value

/-- `cancelAuthorization(authorizer, nonce, v, r, s)` (external): the
signature check over the CancelAuthorization struct hash, the
record-Unused check (`"STATE"`), then the record write to `Canceled`.
No timing check exists. -/
def cancelAuthorization (ecrecover : Ecrecover) (st : TokenState)
    (authorizer nonce : Nat) (sig : Sig) : Except Err TokenState :=
  let recovered := ecrecover (_toTypedMessageHash st (.cancelAuthorization authorizer nonce)) sig
  if recovered ≠ authorizer then .error .SIG
  else if st.authorizationState (_authKey authorizer nonce) ≠ .Unused then .error .STATE
  else .ok { st with
    authorizationState :=
      Function.update st.authorizationState (_authKey authorizer nonce) .Canceled }

/-!
Part 2: the off-chain EIP-7702 builder scripts. Bytes are `Nat`s below
256; hex strings of the scripts become byte lists.
-/

/-- A byte: a `Nat` below 256. -/
abbrev Byte := Nat

/-- An RLP item as accepted by ethers.encodeRlp: a byte string or a
nested ordered sequence. -/
inductive RlpItem where
  | bytes (bs : List Byte)
  | list (items : List RlpItem)

/-- Minimal big-endian byte representation of a natural number; zero is
the empty byte string (the RLP integer convention). -/
def toBeBytes (n : Nat) : List Byte :=
  if n = 0 then [] else toBeBytes (n / 256) ++ [n % 256]
termination_by n
decreasing_by exact Nat.div_lt_self (Nat.pos_of_ne_zero (by assumption)) (by decide)

/-- The RLP length header: payloads up to 55 bytes get the single byte
`offset + len`; longer payloads get `offset + 55 + byteLen(len)`
followed by the big-endian bytes of `len`. -/
def lenHeader (len offset : Nat) : List Byte :=
  if len ≤ 55 then [offset + len]
  else (offset + 55 + (toBeBytes len).length) :: toBeBytes len

mutual

/-- Canonical RLP encoding (ethers.encodeRlp): a single byte below 0x80
is its own encoding; any other byte string gets a 0x80-offset header;
a sequence gets a 0xc0-offset header over the concatenated encodings. -/
def rlpEncode : RlpItem → List Byte
  | .bytes [b] => if b < 128 then [b] else lenHeader 1 128 ++ [b]
  | .bytes bs => lenHeader bs.length 128 ++ bs
  | .list items =>
    let payload := rlpEncodeList items
    lenHeader payload.length 192 ++ payload

/-- Concatenated RLP encodings of a sequence's items, in order. -/
def rlpEncodeList : List RlpItem → List Byte
  | [] => []
  | i :: rest => rlpEncode i ++ rlpEncodeList rest

end

/-- `ethers.toBeHex(n)` as bytes: minimal big-endian, except that zero
becomes the single byte 0x00 (toBeHex(0) is the string '0x00'). -/
def toBeHexBytes (n : Nat) : List Byte :=
  if n = 0 then [0] else toBeBytes n

/-- The scripts' zero-tip fixup, applied to the priority-fee field only:
`maxPriorityFeePerGas === '0x00' ? '0x' : maxPriorityFeePerGas`. -/
def zeroToEmpty (bs : List Byte) : List Byte :=
  if bs = [0] then [] else bs

/-- A recoverable signature as returned by ethers' signingKey.sign:
`yParity` in {0, 1} and the 32-byte `r` and `s` components. -/
structure TxSig where
  yParity : Nat
  r : List Byte
  s : List Byte

/-- The scripts' yParity field encoding:
`signature.yParity === 0 ? '0x' : '0x01'`. -/
def yParityBytes (y : Nat) : List Byte :=
  if y = 0 then [] else [1]

/-- The EIP-7702 authorization tuple `[chainId, address, nonce]` with
the numeric fields represented via `ethers.toBeHex` (executeERC20Transfer.js
lines 60-64 and 103-112; identically in the unnamed scripts). -/
def authTuple (chainId : Nat) (delegateAddress : List Byte) (nonce : Nat) : List RlpItem :=
  [.bytes (toBeHexBytes chainId), .bytes delegateAddress, .bytes (toBeHexBytes nonce)]

/-- `encodedAuthorizationData`: the one-byte magic 0x05 followed by
`encodeRlp([chainId, address, nonce])`. -/
def encodedAuthorizationData (chainId : Nat) (delegateAddress : List Byte) (nonce : Nat) :
    List Byte :=
  5 :: rlpEncode (.list (authTuple chainId delegateAddress nonce))

/-- `authorizationDataHash = keccak256(encodedAuthorizationData)`;
keccak abstracted into a function argument. -/
def authorizationDataHash (keccak256 : List Byte → Nat)
    (chainId : Nat) (delegateAddress : List Byte) (nonce : Nat) : Nat :=
  keccak256 (encodedAuthorizationData chainId delegateAddress nonce)

/-- `authorizationSignature = authorizer.signingKey.sign(authorizationDataHash)`;
the signing primitive abstracted into a function argument. -/
def authorizationSig (keccak256 : List Byte → Nat) (sign : Nat → TxSig)
    (chainId : Nat) (delegateAddress : List Byte) (nonce : Nat) : TxSig :=
  sign (authorizationDataHash keccak256 chainId delegateAddress nonce)

/-- The `txData` array of executeERC20Transfer.js lines 93-113 (the
unnamed script part_000 lines 80-100 assembles the same shape): chain
id, sender nonce, fees, gas limit, destination, value `'0x'`, calldata,
empty access list, authorization list. Every numeric field goes through
`ethers.toBeHex`; only the priority-fee field gets the zero-to-empty
fixup. -/
def txData (chainId gasPayerNonce maxPriorityFeePerGas maxFeePerGas gasLimit : Nat)
    (toAddr calldata : List Byte) (authorizationList : List RlpItem) : List RlpItem :=
  [ .bytes (toBeHexBytes chainId),
    .bytes (toBeHexBytes gasPayerNonce),
    .bytes (zeroToEmpty (toBeHexBytes maxPriorityFeePerGas)),
    .bytes (toBeHexBytes maxFeePerGas),
    .bytes (toBeHexBytes gasLimit),
    .bytes toAddr,
    .bytes [],
    .bytes calldata,
    .list [],
    .list authorizationList ]

/-- `encodedTxData`: the type marker 0x04 followed by `encodeRlp(txData)`. -/
def encodedTxData (fields : List RlpItem) : List Byte :=
  4 :: rlpEncode (.list fields)

/-- The signed transaction exactly as assembled in
executeERC20Transfer.js lines 119-136: hash `0x04 || RLP(txData)`, sign
the hash with the gas payer's key, then re-encode
`0x04 || RLP(txData ++ [yParity, r, s])`. -/
def signedTx (keccak256 : List Byte → Nat) (sign : Nat → TxSig)
    (fields : List RlpItem) : List Byte :=
  let txDataHash := keccak256 (encodedTxData fields)
  let txSignature := sign txDataHash
  4 :: rlpEncode (.list (fields ++
    [ .bytes (yParityBytes txSignature.yParity),
      .bytes txSignature.r,
      .bytes txSignature.s ]))

/-- The authorization account-nonce convention at the call site in
executeERC20Transfer.js line 63 (gas-sponsored pattern): the token
holder's fetched transaction count, unchanged. -/
def authNonceExample1 (tokenHolderNonce : Nat) : Nat :=
  tokenHolderNonce

/-- The authorization account-nonce convention at the call site in the
unnamed script part_000 line 51 (self-sponsored pattern): the wallet's
fetched transaction count plus one. -/
def authNoncePart000 (currentNonce : Nat) : Nat :=
  currentNonce + 1

/-- The authorization account-nonce convention at the call site in the
unnamed script part_001 line 79 (self-sponsored pattern): the wallet's
fetched transaction count plus one. -/
def authNoncePart001 (currentNonce : Nat) : Nat :=
  currentNonce + 1

/-- The ledger invariant of the token: a finite set `S` supports all
nonzero balances, the balances over `S` sum to `totalSupply`, and the
supply fits in a 256-bit word. -/
def SupplyInv (st : TokenState) (S : Finset Address) : Prop :=
  st.totalSupply < U256MOD ∧
  (∀ a, a ∉ S → st.balanceOf a = 0) ∧
  S.sum st.balanceOf = st.totalSupply

/-- A concrete state used to exhibit the theorems on a runnable input:
account 3 holds the whole supply of 100, no allowances, every
authorization record Unused. -/
def exampleState : TokenState :=
  { totalSupply := 100
    balanceOf := Function.update (fun _ => 0) 3 100
    allowance := fun _ _ => 0
    authorizationState := fun _ => .Unused
    DOMAIN_SEPARATOR := 9 }

/-- An ecrecover instance recovering address 7 for every digest. -/
def exampleEcrecover : Ecrecover := fun _ _ => 7

/-- The state `cancelAuthorization` produces from `exampleState` for
authorizer 7 and nonce 1 under `exampleEcrecover`. -/
def exampleCanceled : TokenState :=
  match cancelAuthorization exampleEcrecover exampleState 7 1 ⟨27, 5, 6⟩ with
  | .ok s => s
  | .error _ => exampleState

/-!
Helper lemmas: success characterizations of the contract's internal
functions, shared by several claim proofs.
-/

/-- `_transfer` succeeds exactly on a sufficient balance, producing the
two-write balance map. -/
theorem _transfer_ok_iff (st : TokenState) (f t v : Nat) (st' : TokenState) :
    _transfer st f t v = .ok st' ↔
    v ≤ st.balanceOf f ∧
    st' = { st with balanceOf := transferredBalances st.balanceOf f t v } := by
  by_cases h : st.balanceOf f < v
  · simp only [_transfer, h, if_true, reduceCtorEq, false_iff, not_and]
    intro hv
    omega
  · simp [_transfer, h, eq_comm, Nat.le_of_not_lt h]

/-- `_validateAndUse` succeeds exactly when the timing window is open,
the signature recovers to the authorizer, and the record is `Unused`;
the sole state change is that record's write to `Used`. -/
theorem _validateAndUse_ok_iff (ecr : Ecrecover) (ts : Nat) (st : TokenState)
    (a va vb n : Nat) (sh : StructHash) (sig : Sig) (st1 : TokenState) :
    _validateAndUse ecr ts st a va vb n sh sig = .ok st1 ↔
    va < ts ∧ ts < vb ∧ ecr (_toTypedMessageHash st sh) sig = a ∧
    st.authorizationState (a, n) = .Unused ∧
    st1 = { st with
      authorizationState := Function.update st.authorizationState (a, n) .Used } := by
  by_cases hva : va < ts
  · by_cases hvb : ts < vb
    · by_cases hrec : ecr (_toTypedMessageHash st sh) sig = a
      · by_cases hu : st.authorizationState (a, n) = .Unused
        · simp [_validateAndUse, _authKey, hva, hvb, hrec, hu, eq_comm]
        · simp [_validateAndUse, _authKey, hva, hvb, hrec, hu]
      · simp [_validateAndUse, _authKey, hva, hvb, hrec]
    · simp [_validateAndUse, _authKey, hva, hvb]
  · simp [_validateAndUse, _authKey, hva]

/-- `cancelAuthorization` succeeds exactly when the signature recovers
to the authorizer and the record is `Unused`; the sole state change is
that record's write to `Canceled`. No timing condition appears. -/
theorem cancelAuthorization_ok_iff (ecr : Ecrecover) (st : TokenState)
    (a n : Nat) (sig : Sig) (st' : TokenState) :
    cancelAuthorization ecr st a n sig = .ok st' ↔
    ecr (_toTypedMessageHash st (.cancelAuthorization a n)) sig = a ∧
    st.authorizationState (a, n) = .Unused ∧
    st' = { st with
      authorizationState := Function.update st.authorizationState (a, n) .Canceled } := by
  by_cases hrec : ecr (_toTypedMessageHash st (.cancelAuthorization a n)) sig = a
  · by_cases hu : st.authorizationState (a, n) = .Unused
    · simp [cancelAuthorization, _authKey, hrec, hu, eq_comm]
    · simp [cancelAuthorization, _authKey, hrec, hu]
  · simp [cancelAuthorization, _authKey, hrec]

/-- `transferWithAuthorization` succeeds exactly when the window is
open, the signature recovers to `from`, the record is `Unused` and the
balance suffices; on success the record write and the balance writes
happen together in the one result state. -/
theorem transferWithAuthorization_ok_iff (ecr : Ecrecover) (ts : Nat) (st : TokenState)
    (f t v va vb n : Nat) (sig : Sig) (st' : TokenState) :
    transferWithAuthorization ecr ts st f t v va vb n sig = .ok st' ↔
    va < ts ∧ ts < vb ∧
    ecr (_toTypedMessageHash st (.transferWithAuthorization f t v va vb n)) sig = f ∧
    st.authorizationState (f, n) = .Unused ∧
    v ≤ st.balanceOf f ∧
    st' = { st with
      authorizationState := Function.update st.authorizationState (f, n) .Used,
      balanceOf := transferredBalances st.balanceOf f t v } := by
  unfold transferWithAuthorization
  rcases hv : _validateAndUse ecr ts st f va vb n
      (.transferWithAuthorization f t v va vb n) sig with e | st1
  · simp only [reduceCtorEq, false_iff, not_and]
    intro h1 h2 h3 h4
    have hok : _validateAndUse ecr ts st f va vb n
        (.transferWithAuthorization f t v va vb n) sig = .ok
        { st with authorizationState := Function.update st.authorizationState (f, n) .Used } :=
      (_validateAndUse_ok_iff ecr ts st f va vb n _ sig _).mpr ⟨h1, h2, h3, h4, rfl⟩
    rw [hv] at hok
    cases hok
  · obtain ⟨h1, h2, h3, h4, h5⟩ := (_validateAndUse_ok_iff ecr ts st f va vb n _ sig st1).mp hv
    subst h5
    rw [_transfer_ok_iff]
    simp [h1, h2, h3, h4]

/-- Claim C2: transferWithAuthorization succeeds only when the current
time lies strictly inside the open interval (validAfter, validBefore);
`validBefore <= timestamp` and `timestamp <= validAfter` each force a
timing failure regardless of the signature; cancelAuthorization has no
time window (its only failure conditions are `SIG` and `STATE`, and its
success is characterized without any time condition). -/
theorem C2_timing_window (ecr : Ecrecover) (ts : Nat) (st : TokenState)
    (f t v va vb n : Nat) (sig : Sig) (a n2 : Nat) (sig2 : Sig) :
    (∀ st', transferWithAuthorization ecr ts st f t v va vb n sig = .ok st' →
      va < ts ∧ ts < vb)
    ∧ (ts ≤ va →
      transferWithAuthorization ecr ts st f t v va vb n sig = .error .TIME_NOT_YET)
    ∧ (vb ≤ ts → ∃ e, transferWithAuthorization ecr ts st f t v va vb n sig = .error e ∧
      (e = .TIME_NOT_YET ∨ e = .TIME_EXPIRED))
    ∧ (∀ e, cancelAuthorization ecr st a n2 sig2 = .error e → e = .SIG ∨ e = .STATE)
    ∧ (∀ st', cancelAuthorization ecr st a n2 sig2 = .ok st' ↔
      ecr (_toTypedMessageHash st (.cancelAuthorization a n2)) sig2 = a ∧
      st.authorizationState (a, n2) = .Unused ∧
      st' = { st with
        authorizationState :=
          Function.update st.authorizationState (a, n2) .Canceled }) := by
  refine ⟨?_, ?_, ?_, ?_, ?_⟩
  · intro st' h
    have := (transferWithAuthorization_ok_iff ecr ts st f t v va vb n sig st').mp h
    exact ⟨this.1, this.2.1⟩
  · intro hle
    have hva : ¬ va < ts := by omega
    simp [transferWithAuthorization, _validateAndUse, hva]
  · intro hle
    by_cases hva : va < ts
    · have hvb : ¬ ts < vb := by omega
      refine ⟨.TIME_EXPIRED, ?_, .inr rfl⟩
      simp [transferWithAuthorization, _validateAndUse, hva, hvb]
    · refine ⟨.TIME_NOT_YET, ?_, .inl rfl⟩
      simp [transferWithAuthorization, _validateAndUse, hva]
  · intro e h
    by_cases hrec : ecr (_toTypedMessageHash st (.cancelAuthorization a n2)) sig2 = a
    · by_cases hu : st.authorizationState (a, n2) = .Unused
      · simp [cancelAuthorization, _authKey, hrec, hu] at h
      · simp [cancelAuthorization, _authKey, hrec, hu] at h
        exact .inr h.symm
    · simp [cancelAuthorization, _authKey, hrec] at h
      exact .inl h.symm
  · intro st'
    exact cancelAuthorization_ok_iff ecr st a n2 sig2 st'

/-- Claim C3: the Unused-to-Used transition and the balance transfer of
transferWithAuthorization are atomic. Success happens exactly when every
precondition (timing window, signature recovery, record Unused, balance
sufficient) holds, and the one success state carries both the record
write and the balance writes; any failure is an `Except.error`, which in
this embedding of the EVM's revert discipline carries no state, so no
partial change survives — in particular a failing balance transfer
yields `.error .BALANCE` and no state in which the record is Used. -/
theorem C3_transition_transfer_atomic (ecr : Ecrecover) (ts : Nat) (st : TokenState)
    (f t v va vb n : Nat) (sig : Sig) :
    (∀ st', transferWithAuthorization ecr ts st f t v va vb n sig = .ok st' ↔
      va < ts ∧ ts < vb ∧
      ecr (_toTypedMessageHash st (.transferWithAuthorization f t v va vb n)) sig = f ∧
      st.authorizationState (f, n) = .Unused ∧
      v ≤ st.balanceOf f ∧
      st' = { st with
        authorizationState := Function.update st.authorizationState (f, n) .Used,
        balanceOf := transferredBalances st.balanceOf f t v })
    ∧ (va < ts → ts < vb →
      ecr (_toTypedMessageHash st (.transferWithAuthorization f t v va vb n)) sig = f →
      st.authorizationState (f, n) = .Unused →
      st.balanceOf f < v →
      transferWithAuthorization ecr ts st f t v va vb n sig = .error .BALANCE) := by
  refine ⟨fun st' => transferWithAuthorization_ok_iff ecr ts st f t v va vb n sig st', ?_⟩
  intro h1 h2 h3 h4 hbal
  have hok : _validateAndUse ecr ts st f va vb n
      (.transferWithAuthorization f t v va vb n) sig = .ok
      { st with authorizationState := Function.update st.authorizationState (f, n) .Used } :=
    (_validateAndUse_ok_iff ecr ts st f va vb n _ sig _).mpr ⟨h1, h2, h3, h4, rfl⟩
  unfold transferWithAuthorization
  rw [hok]
  simp [_transfer, hbal]

/-- Claim C1: for every (authorizer, nonce) pair the record starts
Unused (constructor), leaves Unused at most once — a successful
transferWithAuthorization finds it Unused and leaves it Used, a
successful cancelAuthorization finds it Unused and leaves it Canceled —
and once the record is not Unused, transferWithAuthorization and
cancelAuthorization for the same pair can no longer succeed and, when
their earlier guards pass, fail with their already-consumed conditions
(`USED_OR_CANCELLED` and `STATE`); no operation of the contract ever
writes any record back to Unused. -/
theorem C1_record_leaves_unused_once (ecr : Ecrecover) (ts : Nat) (st : TokenState)
    (f t v va vb n : Nat) (sig sig2 : Sig) (dS owner supply : Nat) :
    (∀ st0 k, mkToken dS owner supply = .ok st0 → st0.authorizationState k = .Unused)
    ∧ (∀ st', transferWithAuthorization ecr ts st f t v va vb n sig = .ok st' →
      st.authorizationState (f, n) = .Unused ∧
      st'.authorizationState (f, n) = .Used ∧
      ∀ k, k ≠ (f, n) → st'.authorizationState k = st.authorizationState k)
    ∧ (∀ st', cancelAuthorization ecr st f n sig2 = .ok st' →
      st.authorizationState (f, n) = .Unused ∧
      st'.authorizationState (f, n) = .Canceled ∧
      ∀ k, k ≠ (f, n) → st'.authorizationState k = st.authorizationState k)
    ∧ (st.authorizationState (f, n) ≠ .Unused →
      (∀ st', transferWithAuthorization ecr ts st f t v va vb n sig ≠ .ok st') ∧
      (va < ts → ts < vb →
        ecr (_toTypedMessageHash st (.transferWithAuthorization f t v va vb n)) sig = f →
        transferWithAuthorization ecr ts st f t v va vb n sig = .error .USED_OR_CANCELLED))
    ∧ (st.authorizationState (f, n) ≠ .Unused →
      (∀ st', cancelAuthorization ecr st f n sig2 ≠ .ok st') ∧
      (ecr (_toTypedMessageHash st (.cancelAuthorization f n)) sig2 = f →
        cancelAuthorization ecr st f n sig2 = .error .STATE))
    ∧ (∀ st' k, st.authorizationState k ≠ .Unused →
      (transferWithAuthorization ecr ts st f t v va vb n sig = .ok st' →
        st'.authorizationState k ≠ .Unused) ∧
      (cancelAuthorization ecr st f n sig2 = .ok st' →
        st'.authorizationState k ≠ .Unused) ∧
      (∀ ms toA v2, transfer st ms toA v2 = .ok st' →
        st'.authorizationState k = st.authorizationState k) ∧
      (∀ ms fA toA v2, transferFrom st ms fA toA v2 = .ok st' →
        st'.authorizationState k = st.authorizationState k) ∧
      (∀ ms sp v2, approve st ms sp v2 = .ok st' →
        st'.authorizationState k = st.authorizationState k)) := by
  refine ⟨?_, ?_, ?_, ?_, ?_, ?_⟩
  · intro st0 k h
    unfold mkToken _mint at h
    split_ifs at h
    all_goals cases h
    all_goals rfl
  · intro st' h
    obtain ⟨-, -, -, h4, -, h6⟩ :=
      (transferWithAuthorization_ok_iff ecr ts st f t v va vb n sig st').mp h
    subst h6
    refine ⟨h4, by simp, fun k hk => by simp [Function.update_apply, hk]⟩
  · intro st' h
    obtain ⟨-, h4, h5⟩ := (cancelAuthorization_ok_iff ecr st f n sig2 st').mp h
    subst h5
    refine ⟨h4, by simp, fun k hk => by simp [Function.update_apply, hk]⟩
  · intro hne
    constructor
    · intro st' h
      obtain ⟨-, -, -, h4, -⟩ :=
        (transferWithAuthorization_ok_iff ecr ts st f t v va vb n sig st').mp h
      exact hne h4
    · intro h1 h2 h3
      simp [transferWithAuthorization, _validateAndUse, _authKey, h1, h2, h3, hne]
  · intro hne
    constructor
    · intro st' h
      obtain ⟨-, h4, -⟩ := (cancelAuthorization_ok_iff ecr st f n sig2 st').mp h
      exact hne h4
    · intro h3
      simp [cancelAuthorization, _authKey, h3, hne]
  · intro st' k hrec
    refine ⟨?_, ?_, ?_, ?_, ?_⟩
    · intro h
      obtain ⟨-, -, -, -, -, h6⟩ :=
        (transferWithAuthorization_ok_iff ecr ts st f t v va vb n sig st').mp h
      subst h6
      by_cases hkey : k = (f, n)
      · subst hkey
        simp [Function.update_apply]
      · simpa [Function.update_apply, hkey] using hrec
    · intro h
      obtain ⟨-, -, h5⟩ := (cancelAuthorization_ok_iff ecr st f n sig2 st').mp h
      subst h5
      by_cases hkey : k = (f, n)
      · subst hkey
        simp [Function.update_apply]
      · simpa [Function.update_apply, hkey] using hrec
    · intro ms toA v2 h
      obtain ⟨-, h2⟩ := (_transfer_ok_iff st ms toA v2 st').mp h
      subst h2
      rfl
    · intro ms fA toA v2 h
      by_cases hal : st.allowance fA ms < v2
      · simp [transferFrom, hal] at h
      · simp only [transferFrom, hal, if_false] at h
        by_cases hmax : st.allowance fA ms ≠ UINT256MAX <;>
          simp only [hmax, if_true, if_false, ite_not] at h <;>
          obtain ⟨-, h2⟩ := (_transfer_ok_iff _ fA toA v2 st').mp h <;>
          subst h2 <;> rfl
    · intro ms sp v2 h
      injection h with h
      subst h
      rfl

/-- The two balance writes of `_transfer` preserve the supported sum:
over any finite set containing both parties, the new balances sum to
the same total, vanish outside the set, and move exactly `value` from
`f` to `t`. The hypothesis `total < U256MOD` rules the wrap-around of
the unchecked addition out. -/
theorem transferredBalances_props (b : Nat → Nat) (S : Finset Nat)
    (f t v total : Nat) (hv : v ≤ b f) (hout : ∀ a, a ∉ S → b a = 0)
    (hsum : S.sum b = total) (htot : total < U256MOD) (hf : f ∈ S) (ht : t ∈ S) :
    S.sum (transferredBalances b f t v) = total ∧
    (∀ a, a ∉ S → transferredBalances b f t v a = 0) ∧
    (f ≠ t → transferredBalances b f t v f = b f - v ∧
      transferredBalances b f t v t = b t + v) ∧
    (∀ a, a ≠ f → a ≠ t → transferredBalances b f t v a = b a) := by
  have hbf_le : b f ≤ total := hsum ▸ Finset.single_le_sum (fun i _ => Nat.zero_le _) hf
  have herase : b f + ∑ x ∈ S \ {f}, b x = total := by
    rw [← hsum, Finset.sdiff_singleton_eq_erase]
    exact Finset.add_sum_erase S b hf
  have hsum1 : ∑ x ∈ S, Function.update b f (b f - v) x = total - v := by
    rw [Finset.sum_update_of_mem hf]
    omega
  have hb1t : Function.update b f (b f - v) t ≤ total - v :=
    hsum1 ▸ Finset.single_le_sum (fun i _ => Nat.zero_le _) ht
  have hmod : (Function.update b f (b f - v) t + v) % U256MOD =
      Function.update b f (b f - v) t + v := Nat.mod_eq_of_lt (by omega)
  refine ⟨?_, ?_, ?_, ?_⟩
  · show (S.sum (Function.update (Function.update b f (b f - v)) t _)) = total
    rw [Finset.sum_update_of_mem ht, hmod]
    have herase1 : Function.update b f (b f - v) t +
        ∑ x ∈ S \ {t}, Function.update b f (b f - v) x = total - v := by
      rw [← hsum1, Finset.sdiff_singleton_eq_erase]
      exact Finset.add_sum_erase S _ ht
    omega
  · intro a ha
    have haf : a ≠ f := fun he => ha (he ▸ hf)
    have hat : a ≠ t := fun he => ha (he ▸ ht)
    show Function.update (Function.update b f (b f - v)) t _ a = 0
    rw [Function.update_noteq hat, Function.update_noteq haf]
    exact hout a ha
  · intro hft
    constructor
    · show Function.update (Function.update b f (b f - v)) t _ f = b f - v
      rw [Function.update_noteq hft, Function.update_same]
    · show Function.update (Function.update b f (b f - v)) t _ t = b t + v
      rw [Function.update_same, hmod, Function.update_noteq (Ne.symm hft)]
  · intro a haf hat
    show Function.update (Function.update b f (b f - v)) t _ a = b a
    rw [Function.update_noteq hat, Function.update_noteq haf]

/-- `_transfer` preserves the supply invariant (over the support
enlarged by the two parties), keeps `totalSupply`, and moves exactly
the requested value. -/
theorem _transfer_supply (st st' : TokenState) (S : Finset Address) (f t v : Nat)
    (hinv : SupplyInv st S) (h : _transfer st f t v = .ok st') :
    SupplyInv st' (insert f (insert t S)) ∧
    st'.totalSupply = st.totalSupply ∧
    (f ≠ t → st'.balanceOf f = st.balanceOf f - v ∧
      st'.balanceOf t = st.balanceOf t + v) ∧
    (∀ a, a ≠ f → a ≠ t → st'.balanceOf a = st.balanceOf a) := by
  obtain ⟨htot, hout, hsum⟩ := hinv
  obtain ⟨hv, h2⟩ := (_transfer_ok_iff st f t v st').mp h
  subst h2
  have hsub : S ⊆ insert f (insert t S) :=
    subset_trans (Finset.subset_insert t S) (Finset.subset_insert f _)
  have hout' : ∀ a, a ∉ insert f (insert t S) → st.balanceOf a = 0 :=
    fun a ha => hout a fun hm => ha (hsub hm)
  have hf : f ∈ insert f (insert t S) := Finset.mem_insert_self f _
  have ht : t ∈ insert f (insert t S) :=
    Finset.mem_insert_of_mem (Finset.mem_insert_self t S)
  have hsum' : (insert f (insert t S)).sum st.balanceOf = st.totalSupply := by
    rw [Finset.sum_insert_of_eq_zero_if_not_mem
        (fun hn => hout f fun hm => hn (Finset.mem_insert_of_mem hm)),
      Finset.sum_insert_of_eq_zero_if_not_mem (fun hn => hout t hn)]
    exact hsum
  obtain ⟨p1, p2, p3, p4⟩ :=
    transferredBalances_props st.balanceOf (insert f (insert t S)) f t v
      st.totalSupply hv hout' hsum' htot hf ht
  exact ⟨⟨htot, p2, p1⟩, rfl, p3, p4⟩

/-- Claim C9: the constructor's mint establishes the
sum-of-balances-equals-totalSupply invariant, and transfer,
transferFrom and transferWithAuthorization each preserve it; every
transfer operation leaves totalSupply unchanged and moves exactly the
requested value from the sender's balance to the recipient's balance,
touching no other balance. -/
theorem C9_supply_conserved (dS owner supply : Nat) (ecr : Ecrecover) (ts : Nat)
    (st : TokenState) (S : Finset Address) (f t v va vb n ms : Nat) (sig : Sig) :
    (∀ st0, mkToken dS owner supply = .ok st0 → SupplyInv st0 {owner})
    ∧ (∀ st', SupplyInv st S → transfer st ms t v = .ok st' →
      SupplyInv st' (insert ms (insert t S)) ∧
      st'.totalSupply = st.totalSupply ∧
      (ms ≠ t → st'.balanceOf ms = st.balanceOf ms - v ∧
        st'.balanceOf t = st.balanceOf t + v) ∧
      (∀ a, a ≠ ms → a ≠ t → st'.balanceOf a = st.balanceOf a))
    ∧ (∀ st', SupplyInv st S → transferFrom st ms f t v = .ok st' →
      SupplyInv st' (insert f (insert t S)) ∧
      st'.totalSupply = st.totalSupply ∧
      (f ≠ t → st'.balanceOf f = st.balanceOf f - v ∧
        st'.balanceOf t = st.balanceOf t + v) ∧
      (∀ a, a ≠ f → a ≠ t → st'.balanceOf a = st.balanceOf a))
    ∧ (∀ st', SupplyInv st S →
      transferWithAuthorization ecr ts st f t v va vb n sig = .ok st' →
      SupplyInv st' (insert f (insert t S)) ∧
      st'.totalSupply = st.totalSupply ∧
      (f ≠ t → st'.balanceOf f = st.balanceOf f - v ∧
        st'.balanceOf t = st.balanceOf t + v) ∧
      (∀ a, a ≠ f → a ≠ t → st'.balanceOf a = st.balanceOf a)) := by
  refine ⟨?_, ?_, ?_, ?_⟩
  · intro st0 h
    unfold mkToken _mint at h
    split_ifs at h with h1
    all_goals cases h
    refine ⟨by simpa using h1, fun a ha => ?_, ?_⟩
    · have : a ≠ owner := by simpa using ha
      simp [Function.update_apply, this]
    · simp [Function.update_apply]
  · intro st' hinv h
    exact _transfer_supply st st' S ms t v hinv h
  · intro st' hinv h
    by_cases hal : st.allowance f ms < v
    · simp [transferFrom, hal] at h
    · simp only [transferFrom, hal, if_false] at h
      by_cases hmax : st.allowance f ms ≠ UINT256MAX <;>
        simp only [hmax, if_true, if_false, ite_not] at h
      · exact _transfer_supply
          { st with
            allowance := Function.update st.allowance f
              (Function.update (st.allowance f) ms (st.allowance f ms - v)) }
          st' S f t v hinv h
      · exact _transfer_supply st st' S f t v hinv h
  · intro st' hinv h
    obtain ⟨h1, h2, h3, h4, h5, h6⟩ :=
      (transferWithAuthorization_ok_iff ecr ts st f t v va vb n sig st').mp h
    have htr : _transfer
        { st with
          authorizationState := Function.update st.authorizationState (f, n) .Used }
        f t v = .ok st' := by
      rw [_transfer_ok_iff]
      exact ⟨h5, h6⟩
    exact _transfer_supply
      { st with
        authorizationState := Function.update st.authorizationState (f, n) .Used }
      st' S f t v hinv htr

/-- Claim C8: the SIG failure occurs exactly when ecrecover's result
differs from the claimed authorizer (for transferWithAuthorization,
once the timing guards that precede the signature check pass); with the
zero address as claimed authorizer, a signature whose recovery fails
(ecrecover returning the zero address) passes the check — the operation
gets past SIG and, when the remaining preconditions hold, succeeds. -/
theorem C8_sig_check_is_recovered_eq (ecr : Ecrecover) (ts : Nat) (st : TokenState)
    (f t v va vb n : Nat) (sig : Sig) (a n2 : Nat) (sig2 : Sig) :
    (cancelAuthorization ecr st a n2 sig2 = .error .SIG ↔
      ecr (_toTypedMessageHash st (.cancelAuthorization a n2)) sig2 ≠ a)
    ∧ (va < ts → ts < vb →
      (transferWithAuthorization ecr ts st f t v va vb n sig = .error .SIG ↔
        ecr (_toTypedMessageHash st (.transferWithAuthorization f t v va vb n)) sig ≠ f))
    ∧ (ecr (_toTypedMessageHash st (.cancelAuthorization 0 n2)) sig2 = 0 →
      cancelAuthorization ecr st 0 n2 sig2 ≠ .error .SIG)
    ∧ (ecr (_toTypedMessageHash st (.cancelAuthorization 0 n2)) sig2 = 0 →
      st.authorizationState (0, n2) = .Unused →
      cancelAuthorization ecr st 0 n2 sig2 = .ok { st with
        authorizationState :=
          Function.update st.authorizationState (0, n2) .Canceled })
    ∧ (ecr (_toTypedMessageHash st
        (.transferWithAuthorization 0 t v va vb n)) sig = 0 →
      va < ts → ts < vb →
      st.authorizationState (0, n) = .Unused →
      v ≤ st.balanceOf 0 →
      transferWithAuthorization ecr ts st 0 t v va vb n sig = .ok { st with
        authorizationState := Function.update st.authorizationState (0, n) .Used,
        balanceOf := transferredBalances st.balanceOf 0 t v }) := by
  refine ⟨?_, ?_, ?_, ?_, ?_⟩
  · by_cases hrec : ecr (_toTypedMessageHash st (.cancelAuthorization a n2)) sig2 = a
    · by_cases hu : st.authorizationState (a, n2) = .Unused <;>
        simp [cancelAuthorization, _authKey, hrec, hu]
    · simp [cancelAuthorization, _authKey, hrec]
  · intro h1 h2
    by_cases hrec :
        ecr (_toTypedMessageHash st (.transferWithAuthorization f t v va vb n)) sig = f
    · by_cases hu : st.authorizationState (f, n) = .Unused
      · by_cases hbal : st.balanceOf f < v <;>
          simp [transferWithAuthorization, _validateAndUse, _authKey, _transfer,
            h1, h2, hrec, hu, hbal]
      · simp [transferWithAuthorization, _validateAndUse, _authKey, h1, h2, hrec, hu]
    · simp [transferWithAuthorization, _validateAndUse, _authKey, h1, h2, hrec]
  · intro hrec h
    rw [(by simp [cancelAuthorization, _authKey, hrec] :
      cancelAuthorization ecr st 0 n2 sig2 =
        (if st.authorizationState (0, n2) ≠ .Unused then (.error .STATE : Except Err TokenState)
         else .ok { st with
           authorizationState :=
             Function.update st.authorizationState (0, n2) .Canceled }))] at h
    split at h
    · cases h
    · cases h
  · intro hrec hu
    exact (cancelAuthorization_ok_iff ecr st 0 n2 sig2 _).mpr ⟨hrec, hu, rfl⟩
  · intro hrec h1 h2 hu hbal
    exact (transferWithAuthorization_ok_iff ecr ts st 0 t v va vb n sig _).mpr
      ⟨h1, h2, hrec, hu, hbal, rfl⟩

/-- Claim C10: a successful cancelAuthorization changes only the
authorization record at (authorizer, nonce), setting it to Canceled;
every balance, every allowance, the total supply, the domain separator
and every other record are unchanged. -/
theorem C10_cancelAuthorization_frame (ecr : Ecrecover) (st st' : TokenState)
    (authorizer nonce : Nat) (sig : Sig)
    (h : cancelAuthorization ecr st authorizer nonce sig = .ok st') :
    st'.balanceOf = st.balanceOf ∧
    st'.allowance = st.allowance ∧
    st'.totalSupply = st.totalSupply ∧
    st'.DOMAIN_SEPARATOR = st.DOMAIN_SEPARATOR ∧
    st'.authorizationState (authorizer, nonce) = .Canceled ∧
    ∀ k, k ≠ (authorizer, nonce) → st'.authorizationState k = st.authorizationState k := by
  obtain ⟨-, -, h5⟩ := (cancelAuthorization_ok_iff ecr st authorizer nonce sig st').mp h
  subst h5
  refine ⟨rfl, rfl, rfl, rfl, ?_, ?_⟩
  · simp
  · intro k hk
    simp [Function.update_apply, hk]

/-- Witness for the C10 frame theorem at a concrete input: cancelling
(authorizer 7, nonce 1) on `exampleState`. -/
theorem C10_witness :
    exampleCanceled.balanceOf = exampleState.balanceOf ∧
    exampleCanceled.allowance = exampleState.allowance ∧
    exampleCanceled.totalSupply = exampleState.totalSupply ∧
    exampleCanceled.DOMAIN_SEPARATOR = exampleState.DOMAIN_SEPARATOR ∧
    exampleCanceled.authorizationState (7, 1) = .Canceled ∧
    ∀ k, k ≠ (7, 1) →
      exampleCanceled.authorizationState k = exampleState.authorizationState k :=
  C10_cancelAuthorization_frame exampleEcrecover exampleState exampleCanceled 7 1
    ⟨27, 5, 6⟩ rfl

/-- Claim C4 names the rule "a zero-valued numeric field always encodes
to the empty byte string, enforced uniformly for every numeric field".
The builder applies the zero-to-empty fixup to the priority-fee field
only; every other numeric field goes through `ethers.toBeHex`, which
renders zero as the single byte 0x00. Concretely, with a gas payer of
account nonce 0, the assembled txData carries `0x00` in the nonce slot
(RLP-serialized as the byte 0x00, not the canonical empty string 0x80),
while the zero priority fee in the neighbouring slot correctly becomes
the empty byte string. -/
theorem C4_zero_nonce_encodes_to_zero_byte :
    (txData 1 0 0 100 300000 [170] [22] [])[1]? = some (.bytes [0]) ∧
    (txData 1 0 0 100 300000 [170] [22] [])[2]? = some (.bytes []) ∧
    toBeHexBytes 0 = [0] ∧
    zeroToEmpty (toBeHexBytes 0) = [] ∧
    rlpEncode (.bytes [0]) = [0] ∧
    rlpEncode (.bytes []) = [128] :=
  ⟨rfl, rfl, rfl, rfl, rfl, rfl⟩

/-- Claim C5: the Delegated Transaction Builder is a pure function of
its inputs producing exactly `0x04 || RLP(fields ++ [yParity, r, s])`,
where the signature triple is the signing primitive applied to
keccak256 of `0x04 || RLP(fields)`; equal inputs give byte-identical
output. -/
theorem C5_signedTx_structure (keccak256 : List Byte → Nat) (sign : Nat → TxSig)
    (fields fields2 : List RlpItem) :
    signedTx keccak256 sign fields =
      4 :: rlpEncode (.list (fields ++
        [ .bytes (yParityBytes (sign (keccak256 (4 :: rlpEncode (.list fields)))).yParity),
          .bytes (sign (keccak256 (4 :: rlpEncode (.list fields)))).r,
          .bytes (sign (keccak256 (4 :: rlpEncode (.list fields)))).s ]))
    ∧ (signedTx keccak256 sign fields).head? = some 4
    ∧ (fields = fields2 →
      signedTx keccak256 sign fields = signedTx keccak256 sign fields2) :=
  ⟨rfl, rfl, fun h => by rw [h]⟩

/-- Claim C6: the Authorization Builder signs exactly keccak256 of the
one-byte magic 0x05 followed by RLP(chainId, delegateAddress, nonce),
and that magic differs from the 0x04 transaction-type marker that heads
every encoded transaction payload, domain-separating the two digests. -/
theorem C6_authorization_payload (keccak256 : List Byte → Nat) (sign : Nat → TxSig)
    (chainId nonce : Nat) (delegateAddress : List Byte) :
    authorizationSig keccak256 sign chainId delegateAddress nonce =
      sign (keccak256 (5 :: rlpEncode (.list
        [ .bytes (toBeHexBytes chainId),
          .bytes delegateAddress,
          .bytes (toBeHexBytes nonce) ])))
    ∧ authorizationDataHash keccak256 chainId delegateAddress nonce =
      keccak256 (encodedAuthorizationData chainId delegateAddress nonce)
    ∧ (encodedAuthorizationData chainId delegateAddress nonce).head? = some 5
    ∧ (∀ fields, (encodedTxData fields).head? = some 4)
    ∧ (5 : Byte) ≠ 4 :=
  ⟨rfl, rfl, rfl, fun _ => rfl, by decide⟩

/-- Counterexample for claim C7: the claim asserts one single nonce
convention across all authorization-building call sites, but at the
same fetched account nonce 7 the call site of executeERC20Transfer.js
embeds 7 while the call site of the unnamed script part_000 embeds 8 —
two different conventions (offset 0 versus offset 1), as the concrete
decision procedure shows. -/
theorem C7_counterexample :
    authNonceExample1 7 = 7 ∧ authNoncePart000 7 = 8 ∧
    decide (authNonceExample1 7 = authNoncePart000 7) = false := by
  decide

/-- Claim C7 amended: the three call sites do not share one convention.
The gas-sponsored call site (executeERC20Transfer.js) embeds the
authorizer's fetched current nonce unchanged, while the two
self-sponsored call sites (part_000 and part_001) both embed the
fetched nonce plus one; the two self-sponsored sites agree with each
other. -/
theorem C7_two_nonce_conventions (n : Nat) :
    authNonceExample1 n = n ∧
    authNoncePart000 n = n + 1 ∧
    authNoncePart001 n = n + 1 ∧
    authNoncePart000 n = authNoncePart001 n :=
  ⟨rfl, rfl, rfl, rfl⟩

/-!
Concrete sanity checks: the embedded operations run on concrete inputs
and produce the states the theorems describe, so none of the claim
theorems above is vacuous.
-/

example :
    (transferWithAuthorization exampleEcrecover 1000 exampleState
      7 4 0 900 2000 11 ⟨27, 5, 6⟩).isOk = true := by
  decide

example : ∃ st', transfer exampleState 3 4 25 = .ok st' ∧
    st'.balanceOf 3 = 75 ∧ st'.balanceOf 4 = 25 ∧ st'.totalSupply = 100 :=
  ⟨_, rfl, by decide, by decide, rfl⟩

example : exampleCanceled.authorizationState (7, 1) = .Canceled := by
  decide

example : rlpEncode (.list [.bytes [1], .bytes [2]]) = [194, 1, 2] := rfl

example : toBeBytes 300 = [1, 44] := by
  simp [toBeBytes]

end EIP7702Test
